import Mathlib

/-!
Verification of the spring-settling engine of `src/js/parallax.js`
(RentARide).  The physics is embedded shallowly over `ℚ`: every JS
number the claims care about is a finite real, and all the arithmetic
in `calculateSpring` (`+`, `-`, `*`, `/`) is exact on the inputs the
claims use, so the rational embedding mirrors the source recurrence.
-/

/-- The shared spring constants, `this.spring` in `ParallaxController`
(parallax.js lines 13-17). -/
structure Spring where
  stiffness : ℚ
  damping : ℚ
  mass : ℚ
deriving DecidableEq

/-- The defaults hard-coded in the constructor:
`stiffness: 0.08, damping: 0.85, mass: 1`. -/
def defaultSpring : Spring :=
  { stiffness := 8/100, damping := 85/100, mass := 1 }

/-- The record returned by `calculateSpring`:
`{ position: newPosition, velocity: newVelocity }`. -/
structure SpringResult where
  position : ℚ
  velocity : ℚ
deriving DecidableEq

/-- `calculateSpring(current, target, velocity, dt = 1/60)`
(parallax.js lines 82-100), line by line.  The source gives `dt` the
default value `1/60`; here `dt` is an explicit argument and the default
is supplied at call sites.  Note the body never reads `dt`. -/
def calculateSpring (spring : Spring) (current target velocity : ℚ) (dt : ℚ) :
    SpringResult :=
  let stiffness := spring.stiffness
  let damping := spring.damping
  let mass := spring.mass
  let displacement := current - target
  let springForce := -stiffness * displacement
  let dampingForce := -damping * velocity
  let acceleration := (springForce + dampingForce) / mass
  let newVelocity := velocity + acceleration
  let newPosition := current + newVelocity
  { position := newPosition, velocity := newVelocity }

/-- The per-layer state kept in `this.layerStates`
(`{ currentY, targetY, velocity, speed }`, parallax.js lines 37-42). -/
structure LayerState where
  currentY : ℚ
  targetY : ℚ
  velocity : ℚ
  speed : ℚ
deriving DecidableEq

/-- One tick of a single layer with its target held, exactly the body of
the `forEach` in `animate` (parallax.js lines 121-128) once
`state.targetY` has been fixed: call `calculateSpring` at the source's
default `dt = 1/60` and store the result back into the state. -/
def tickLayer (spring : Spring) (s : LayerState) : LayerState :=
  let springResult := calculateSpring spring s.currentY s.targetY s.velocity (1/60)
  { s with currentY := springResult.position, velocity := springResult.velocity }

/-- `n` repetitions of `tickLayer` (the externally driven tick loop). -/
def tickN (spring : Spring) : ℕ → LayerState → LayerState
  | 0, s => s
  | n + 1, s => tickLayer spring (tickN spring n s)

/-- One full frame of a layer inside `animate` (parallax.js lines
114-129): recompute `state.targetY` from the shared scroll progress,
hero height and the layer's own `speed`
(`targetY = scrollProgress * (heroHeight * 0.3) * speed`), then apply
`calculateSpring` and store position and velocity back. -/
def animateLayer (spring : Spring) (scrollProgress heroHeight : ℚ)
    (s : LayerState) : LayerState :=
  let maxOffset := heroHeight * (3/10)
  let targetY := scrollProgress * maxOffset * s.speed
  let springResult := calculateSpring spring s.currentY targetY s.velocity (1/60)
  { currentY := springResult.position, targetY := targetY,
    velocity := springResult.velocity, speed := s.speed }

/-- One frame of `animate` over the whole channel set: the `forEach`
over `this.layerStates` updates every layer with the same shared inputs. -/
def animateAll (spring : Spring) (scrollProgress heroHeight : ℚ)
    (layers : List LayerState) : List LayerState :=
  layers.map (animateLayer spring scrollProgress heroHeight)

/-- `n` frames of `animateAll` with the scroll inputs held fixed. -/
def animateAllN (spring : Spring) (scrollProgress heroHeight : ℚ) :
    ℕ → List LayerState → List LayerState
  | 0, l => l
  | n + 1, l => animateAll spring scrollProgress heroHeight
      (animateAllN spring scrollProgress heroHeight n l)

/-- `n` frames of a single layer, for comparing trajectories. -/
def animateLayerN (spring : Spring) (scrollProgress heroHeight : ℚ) :
    ℕ → LayerState → LayerState
  | 0, s => s
  | n + 1, s => animateLayer spring scrollProgress heroHeight
      (animateLayerN spring scrollProgress heroHeight n s)

/-- The two error kinds of the specified engine API. -/
inductive SpringError where
  | InvalidParameter
  | UnknownChannel
deriving DecidableEq

/-- The engine state of the specified `SpringSettler`: the shared
constants plus the channel set. -/
structure Engine where
  spring : Spring
  channels : List LayerState
deriving DecidableEq

/-- Modelled from the spec: `configure(stiffness, damping, mass)` of the
SpringSettler API has no counterpart under `src/` (the source hard-codes
the constants in the `ParallaxController` constructor, lines 13-17).
Per spec section 4.1, all three constants must be strictly positive finite
numbers and `configure` fails with `InvalidParameter` otherwise; in this
`ℚ` embedding every value is finite, so the constraint is strict
positivity.  On failure nothing is written: the function returns only the
error, so the caller's prior engine (every channel's state) is untouched. -/
def configure (stiffness damping mass : ℚ) (e : Engine) :
    Except SpringError Engine :=
  if 0 < stiffness ∧ 0 < damping ∧ 0 < mass then
    Except.ok { e with spring := { stiffness := stiffness, damping := damping, mass := mass } }
  else
    Except.error SpringError.InvalidParameter

/-- The invariant region of a step response started below its target
under the default constants: current strictly below target, velocity
nonnegative and no larger than the remaining gap.  A step from rest
enters this region and (as proved below) never leaves it. -/
def Below (s : LayerState) : Prop :=
  s.currentY < s.targetY ∧ 0 ≤ s.velocity ∧ s.velocity ≤ s.targetY - s.currentY

/-- A weighted norm on the state, measuring distance from the rest
point: the absolute gap plus half the absolute velocity.  Under the
default constants one tick contracts it by a factor 24/25. -/
def dist1 (s : LayerState) : ℚ :=
  |s.currentY - s.targetY| + |s.velocity| / 2

/-- The concrete scenario of spec section 8: a channel registered at 0
(at rest) whose target is stepped to 100 and held. -/
def step100 : LayerState :=
  { currentY := 0, targetY := 100, velocity := 0, speed := 1/2 }

/- ### Helper lemmas about one default tick -/

/-- Under the default constants the new velocity is
`(3/20)*velocity - (2/25)*(current - target)`
(`0.15 = 1 - 0.85` retained velocity, `0.08` times the displacement). -/
theorem tick_velocity (s : LayerState) :
    (tickLayer defaultSpring s).velocity
      = (3/20) * s.velocity - (2/25) * (s.currentY - s.targetY) := by
  simp only [tickLayer, calculateSpring, defaultSpring]
  ring

theorem tick_currentY (s : LayerState) :
    (tickLayer defaultSpring s).currentY
      = s.currentY + (tickLayer defaultSpring s).velocity := rfl

theorem tick_targetY (spring : Spring) (s : LayerState) :
    (tickLayer spring s).targetY = s.targetY := rfl

theorem tickN_targetY (spring : Spring) (n : ℕ) (s : LayerState) :
    (tickN spring n s).targetY = s.targetY := by
  induction n with
  | zero => rfl
  | succ n ih => rw [tickN, tick_targetY, ih]

/-- One default tick keeps the step response strictly below its target,
moves it toward the target, and shrinks the gap by at least 23/25. -/
theorem below_tick (s : LayerState) (h : Below s) :
    Below (tickLayer defaultSpring s)
      ∧ s.currentY ≤ (tickLayer defaultSpring s).currentY
      ∧ s.targetY - (tickLayer defaultSpring s).currentY
          ≤ (23/25) * (s.targetY - s.currentY) := by
  obtain ⟨h1, h2, h3⟩ := h
  have hv := tick_velocity s
  have hc := tick_currentY s
  have ht := tick_targetY defaultSpring s
  refine ⟨⟨?_, ?_, ?_⟩, ?_, ?_⟩ <;> linarith

/-- The `Below` region is invariant under iterated default ticks, and
the gap to the target decays geometrically with ratio 23/25. -/
theorem below_tickN (s : LayerState) (h : Below s) (n : ℕ) :
    Below (tickN defaultSpring n s)
      ∧ s.targetY - (tickN defaultSpring n s).currentY
          ≤ (23/25)^n * (s.targetY - s.currentY) := by
  induction n with
  | zero => exact ⟨h, by simp [tickN]⟩
  | succ n ih =>
    obtain ⟨hb, hd⟩ := ih
    have hstep := below_tick (tickN defaultSpring n s) hb
    refine ⟨hstep.1, ?_⟩
    have ht := tickN_targetY defaultSpring n s
    have h2 := hstep.2.2
    rw [ht] at h2
    have h3 : (23/25 : ℚ) * (s.targetY - (tickN defaultSpring n s).currentY)
        ≤ (23/25) * ((23/25)^n * (s.targetY - s.currentY)) := by
      have : (0:ℚ) ≤ 23/25 := by norm_num
      exact mul_le_mul_of_nonneg_left hd this
    calc s.targetY - (tickN defaultSpring (n+1) s).currentY
        = s.targetY - (tickLayer defaultSpring (tickN defaultSpring n s)).currentY := rfl
      _ ≤ (23/25) * (s.targetY - (tickN defaultSpring n s).currentY) := h2
      _ ≤ (23/25) * ((23/25)^n * (s.targetY - s.currentY)) := h3
      _ = (23/25)^(n+1) * (s.targetY - s.currentY) := by ring

/-- One default tick contracts the weighted norm `dist1` by 24/25, for
every state (arbitrary velocity, not only step responses). -/
theorem dist1_tick (s : LayerState) :
    dist1 (tickLayer defaultSpring s) ≤ (24/25) * dist1 s := by
  have hv := tick_velocity s
  have hc := tick_currentY s
  have ht := tick_targetY defaultSpring s
  set x := s.currentY - s.targetY with hx
  set v := s.velocity with hvdef
  have hx' : (tickLayer defaultSpring s).currentY - (tickLayer defaultSpring s).targetY
      = (23/25) * x + (3/20) * v := by
    rw [hc, hv, ht]; ring
  have hv' : (tickLayer defaultSpring s).velocity
      = (3/20) * v + (-(2/25)) * x := by
    rw [hv]; ring
  have habs_x : |(23/25) * x + (3/20) * v| ≤ (23/25) * |x| + (3/20) * |v| := by
    calc |(23/25) * x + (3/20) * v| ≤ |(23/25) * x| + |(3/20) * v| := abs_add _ _
      _ = (23/25) * |x| + (3/20) * |v| := by
          rw [abs_mul, abs_mul, abs_of_pos (by norm_num : (0:ℚ) < 23/25),
            abs_of_pos (by norm_num : (0:ℚ) < 3/20)]
  have habs_v : |(3/20) * v + (-(2/25)) * x| ≤ (3/20) * |v| + (2/25) * |x| := by
    calc |(3/20) * v + (-(2/25)) * x| ≤ |(3/20) * v| + |(-(2/25)) * x| := abs_add _ _
      _ = (3/20) * |v| + (2/25) * |x| := by
          rw [abs_mul, abs_mul, abs_of_pos (by norm_num : (0:ℚ) < 3/20),
            abs_neg, abs_of_pos (by norm_num : (0:ℚ) < 2/25)]
  have hx0 : (0:ℚ) ≤ |x| := abs_nonneg x
  have hv0 : (0:ℚ) ≤ |v| := abs_nonneg v
  simp only [dist1, hx', hv']
  rw [← hx, ← hvdef]
  linarith

/-- `dist1` is nonnegative. -/
theorem dist1_nonneg (s : LayerState) : 0 ≤ dist1 s := by
  have := abs_nonneg (s.currentY - s.targetY)
  have := abs_nonneg s.velocity
  unfold dist1
  linarith

/-- Iterated default ticks contract the weighted norm geometrically
with ratio 24/25, from every initial state. -/
theorem dist1_tickN (s : LayerState) (n : ℕ) :
    dist1 (tickN defaultSpring n s) ≤ (24/25)^n * dist1 s := by
  induction n with
  | zero => simp [tickN]
  | succ n ih =>
    calc dist1 (tickN defaultSpring (n+1) s)
        = dist1 (tickLayer defaultSpring (tickN defaultSpring n s)) := rfl
      _ ≤ (24/25) * dist1 (tickN defaultSpring n s) := dist1_tick _
      _ ≤ (24/25) * ((24/25)^n * dist1 s) :=
          mul_le_mul_of_nonneg_left ih (by norm_num)
      _ = (24/25)^(n+1) * dist1 s := by ring

/- ### Claim theorems -/

/-- Claim C1: one tick updates a channel by exactly the reference
recurrence: `acceleration = (-stiffness*(current - target) +
(-damping*velocity)) / mass`, `velocity_new = velocity + acceleration`,
`current_new = current + velocity_new`; the target (and the layer's
speed) are left alone. -/
theorem tick_reference_recurrence (spring : Spring) (s : LayerState) :
    (tickLayer spring s).velocity
        = s.velocity
          + (-spring.stiffness * (s.currentY - s.targetY)
              + -spring.damping * s.velocity) / spring.mass
      ∧ (tickLayer spring s).currentY
        = s.currentY + (tickLayer spring s).velocity
      ∧ (tickLayer spring s).targetY = s.targetY
      ∧ (tickLayer spring s).speed = s.speed := by
  refine ⟨rfl, rfl, rfl, rfl⟩

/-- A channel at rest on its target is a fixed point of one tick. -/
theorem tickLayer_rest_fixed (spring : Spring) (init sp : ℚ) :
    tickLayer spring { currentY := init, targetY := init, velocity := 0, speed := sp }
      = { currentY := init, targetY := init, velocity := 0, speed := sp } := by
  simp [tickLayer, calculateSpring]

/-- Claim C2: for every initial value, a channel whose current equals its
target and whose velocity is 0 is a fixed point of the tick update: after
any number of ticks with the target held, the whole state is unchanged. -/
theorem rest_state_fixed_point (spring : Spring) (init sp : ℚ) (n : ℕ) :
    tickN spring n { currentY := init, targetY := init, velocity := 0, speed := sp }
      = { currentY := init, targetY := init, velocity := 0, speed := sp } := by
  induction n with
  | zero => rfl
  | succ n ih => rw [tickN, ih, tickLayer_rest_fixed]

/-- Claim C3: with the default constants, a channel at `current = 0`,
`velocity = 0`, `target = 100` has, after exactly one tick, velocity 8
and current 8 (exact in `ℚ`: acceleration = 0.08*100/1 = 8). -/
theorem first_tick_step_100 :
    (tickN defaultSpring 1 { currentY := 0, targetY := 100, velocity := 0, speed := 1/2 }).currentY = 8
      ∧ (tickN defaultSpring 1 { currentY := 0, targetY := 100, velocity := 0, speed := 1/2 }).velocity = 8 := by
  constructor <;> norm_num [tickN, tickLayer, calculateSpring, defaultSpring]

/-- Claim C7: the `dt` argument of `calculateSpring` is never read: for
every `dt` the result coincides with the result at the default
`dt = 1/60` (the timestep is folded into the constants). -/
theorem dt_has_no_effect (spring : Spring) (current target velocity dt : ℚ) :
    calculateSpring spring current target velocity dt
      = calculateSpring spring current target velocity (1/60) := rfl

/-- Claim C10: the spring update is homogeneous: scaling current, target
and velocity by `k` scales both outputs by `k`, for the same constants
(exact rational arithmetic; note `(k*a)/m = k*(a/m)` holds in `ℚ` even
for `m = 0` under the junk value `a/0 = 0`). -/
theorem calculateSpring_homogeneous (spring : Spring) (k current target velocity dt : ℚ) :
    (calculateSpring spring (k * current) (k * target) (k * velocity) dt).position
        = k * (calculateSpring spring current target velocity dt).position
      ∧ (calculateSpring spring (k * current) (k * target) (k * velocity) dt).velocity
        = k * (calculateSpring spring current target velocity dt).velocity := by
  constructor <;>
    · simp only [calculateSpring]
      field_simp
      ring

/-- Claim C4: under the default constants the iterated tick update
converges.  From any initial state the distance to the (held) target is
bounded by a geometric decay with ratio 24/25 of the initial weighted
norm, and in particular stays bounded for all time by that initial
norm; for the concrete step from 0 to 100 started at rest, after 300
ticks the distance is below 1/100, and from tick 60 on it is within 1%
of the step (below 1). -/
theorem settling_convergence :
    (∀ (c0 v0 t sp : ℚ) (n : ℕ),
        |(tickN defaultSpring n
            { currentY := c0, targetY := t, velocity := v0, speed := sp }).currentY - t|
            ≤ (24/25)^n * (|c0 - t| + |v0| / 2)
          ∧ |(tickN defaultSpring n
              { currentY := c0, targetY := t, velocity := v0, speed := sp }).currentY - t|
            ≤ |c0 - t| + |v0| / 2)
      ∧ |(tickN defaultSpring 300 step100).currentY - 100| < 1/100
      ∧ ∀ m : ℕ, |(tickN defaultSpring (60 + m) step100).currentY - 100| < 1 := by
  have key : ∀ (c0 v0 t sp : ℚ) (n : ℕ),
      |(tickN defaultSpring n
          { currentY := c0, targetY := t, velocity := v0, speed := sp }).currentY - t|
        ≤ (24/25)^n * (|c0 - t| + |v0| / 2) := by
    intro c0 v0 t sp n
    have htar : (tickN defaultSpring n
        { currentY := c0, targetY := t, velocity := v0, speed := sp }).targetY = t :=
      tickN_targetY defaultSpring n _
    have h1 : |(tickN defaultSpring n
        { currentY := c0, targetY := t, velocity := v0, speed := sp }).currentY - t|
        ≤ dist1 (tickN defaultSpring n
            { currentY := c0, targetY := t, velocity := v0, speed := sp }) := by
      unfold dist1
      rw [htar]
      have := abs_nonneg (tickN defaultSpring n
        { currentY := c0, targetY := t, velocity := v0, speed := sp }).velocity
      linarith
    have h2 := dist1_tickN
      { currentY := c0, targetY := t, velocity := v0, speed := sp } n
    have h3 : dist1 { currentY := c0, targetY := t, velocity := v0, speed := sp }
        = |c0 - t| + |v0| / 2 := rfl
    rw [h3] at h2
    exact h1.trans h2
  have hstepB : Below step100 := by
    refine ⟨?_, ?_, ?_⟩ <;> norm_num [step100]
  have habs : ∀ n : ℕ, |(tickN defaultSpring n step100).currentY - 100|
      = 100 - (tickN defaultSpring n step100).currentY := by
    intro n
    have h1 := (below_tickN step100 hstepB n).1.1
    have h2 := tickN_targetY defaultSpring n step100
    rw [h2] at h1
    have h3 : step100.targetY = 100 := rfl
    rw [h3] at h1
    rw [abs_sub_comm, abs_of_nonneg (by linarith)]
  have hgap : ∀ n : ℕ, 100 - (tickN defaultSpring n step100).currentY
      ≤ (23/25)^n * 100 := by
    intro n
    have h := (below_tickN step100 hstepB n).2
    have h3 : step100.targetY = 100 := rfl
    have h4 : step100.currentY = 0 := rfl
    rw [h3, h4] at h
    calc 100 - (tickN defaultSpring n step100).currentY
        ≤ (23/25)^n * (100 - 0) := h
      _ = (23/25)^n * 100 := by ring
  refine ⟨fun c0 v0 t sp n => ⟨key c0 v0 t sp n, ?_⟩, ?_, ?_⟩
  · have h1 := key c0 v0 t sp n
    have h2 : ((24:ℚ)/25)^n * (|c0 - t| + |v0| / 2) ≤ 1 * (|c0 - t| + |v0| / 2) := by
      have hp : ((24:ℚ)/25)^n ≤ 1 := pow_le_one₀ (by norm_num) (by norm_num)
      have hX : (0:ℚ) ≤ |c0 - t| + |v0| / 2 := by
        have := abs_nonneg (c0 - t)
        have := abs_nonneg v0
        linarith
      exact mul_le_mul_of_nonneg_right hp hX
    calc |(tickN defaultSpring n
          { currentY := c0, targetY := t, velocity := v0, speed := sp }).currentY - t|
        ≤ ((24:ℚ)/25)^n * (|c0 - t| + |v0| / 2) := h1
      _ ≤ 1 * (|c0 - t| + |v0| / 2) := h2
      _ = |c0 - t| + |v0| / 2 := one_mul _
  · rw [habs 300]
    have h1 := hgap 300
    have h2 : ((23:ℚ)/25)^300 * 100 < 1/100 := by norm_num
    linarith
  · intro m
    rw [habs (60 + m)]
    have h1 := hgap (60 + m)
    have h2 : ((23:ℚ)/25)^(60 + m) * 100 ≤ (23/25)^60 * 100 := by
      rw [pow_add]
      have hm : ((23:ℚ)/25)^m ≤ 1 := pow_le_one₀ (by norm_num) (by norm_num)
      nlinarith [pow_nonneg (by norm_num : (0:ℚ) ≤ 23/25) 60,
        pow_nonneg (by norm_num : (0:ℚ) ≤ 23/25) m]
    have h3 : ((23:ℚ)/25)^60 * 100 < 1 := by norm_num
    linarith

/-- Claim C5, counterexample: in the concrete step scenario (defaults,
start at rest at 0, target stepped to 100 and held) the current never
reaches, let alone passes beyond, the target at any tick: there is no
overshoot, because damping 0.85 applied per frame leaves only 15% of
the velocity each tick and the discrete system is overdamped. -/
theorem step_response_never_overshoots :
    ¬ ∃ n : ℕ, 100 ≤ (tickN defaultSpring n step100).currentY := by
  rintro ⟨n, hn⟩
  have hstepB : Below step100 := by
    refine ⟨?_, ?_, ?_⟩ <;> norm_num [step100]
  have h1 := (below_tickN step100 hstepB n).1.1
  have h2 := tickN_targetY defaultSpring n step100
  rw [h2] at h1
  have h3 : step100.targetY = 100 := rfl
  rw [h3] at h1
  linarith

/-- Claim C5 as amended: under the default constants a channel started
at rest below its target never overshoots: at every tick the current is
still strictly below the target, moves monotonically toward it, and the
remaining gap decays geometrically (ratio at most 23/25), so the
response settles without any bounce. -/
theorem step_response_monotone_settling (c0 t sp : ℚ) (n : ℕ) (h : c0 < t) :
    (tickN defaultSpring n
        { currentY := c0, targetY := t, velocity := 0, speed := sp }).currentY < t
      ∧ (tickN defaultSpring n
          { currentY := c0, targetY := t, velocity := 0, speed := sp }).currentY
        ≤ (tickN defaultSpring (n+1)
            { currentY := c0, targetY := t, velocity := 0, speed := sp }).currentY
      ∧ t - (tickN defaultSpring (n+1)
            { currentY := c0, targetY := t, velocity := 0, speed := sp }).currentY
        ≤ (23/25) * (t - (tickN defaultSpring n
            { currentY := c0, targetY := t, velocity := 0, speed := sp }).currentY) := by
  have hB : Below { currentY := c0, targetY := t, velocity := 0, speed := sp } := by
    refine ⟨h, le_refl 0, ?_⟩
    show (0:ℚ) ≤ t - c0
    linarith
  obtain ⟨hb, _⟩ := below_tickN
    { currentY := c0, targetY := t, velocity := 0, speed := sp } hB n
  have htar := tickN_targetY defaultSpring n
    { currentY := c0, targetY := t, velocity := 0, speed := sp }
  have hstep := below_tick _ hb
  refine ⟨?_, ?_, ?_⟩
  · have h1 := hb.1
    rw [htar] at h1
    exact h1
  · exact hstep.2.1
  · have h1 := hstep.2.2
    rw [htar] at h1
    exact h1

theorem step_response_monotone_settling_witness :
    (0:ℚ) < 100
      ∧ ((tickN defaultSpring 1
            { currentY := 0, targetY := 100, velocity := 0, speed := 1/2 }).currentY < 100
        ∧ (tickN defaultSpring 1
            { currentY := 0, targetY := 100, velocity := 0, speed := 1/2 }).currentY
          ≤ (tickN defaultSpring 2
              { currentY := 0, targetY := 100, velocity := 0, speed := 1/2 }).currentY
        ∧ 100 - (tickN defaultSpring 2
              { currentY := 0, targetY := 100, velocity := 0, speed := 1/2 }).currentY
          ≤ (23/25) * (100 - (tickN defaultSpring 1
              { currentY := 0, targetY := 100, velocity := 0, speed := 1/2 }).currentY)) :=
  ⟨by norm_num, step_response_monotone_settling 0 100 (1/2) 1 (by norm_num)⟩

/-- Each frame of `animateAll` acts on every position of the channel
list through `animateLayer` alone, so after `n` frames a channel's
entry is `animateLayerN` of its initial entry: its trajectory is a
function of its own initial state and the shared inputs only. -/
theorem animateAllN_getElem (spring : Spring) (sp hh : ℚ) (n : ℕ)
    (l : List LayerState) (i : ℕ) :
    (animateAllN spring sp hh n l)[i]?
      = Option.map (animateLayerN spring sp hh n) l[i]? := by
  induction n with
  | zero =>
    cases h : l[i]? <;> simp [animateAllN, animateLayerN, h]
  | succ n ih =>
    show (animateAll spring sp hh (animateAllN spring sp hh n l))[i]?
      = Option.map (animateLayerN spring sp hh (n+1)) l[i]?
    rw [animateAll, List.getElem?_map, ih]
    cases h : l[i]? <;> simp [animateLayerN, h]

/-- Claim C6: channel independence.  Within one frame, a channel's new
state is a function only of its own prior state and the shared inputs
(`Option.map` of `animateLayer` at its position); and for two channel
sets that agree on one channel, iterating the frame update yields the
same trajectory for that channel regardless of how many other channels
exist or what their states are. -/
theorem channel_independence (spring : Spring) (sp hh : ℚ)
    (chs1 chs2 : List LayerState) (i j n : ℕ)
    (h : chs1[i]? = chs2[j]?) :
    (animateAll spring sp hh chs1)[i]?
        = Option.map (animateLayer spring sp hh) chs1[i]?
      ∧ (animateAllN spring sp hh n chs1)[i]?
        = (animateAllN spring sp hh n chs2)[j]? := by
  constructor
  · rw [animateAll, List.getElem?_map]
  · rw [animateAllN_getElem, animateAllN_getElem, h]

theorem channel_independence_witness :
    (([{ currentY := 1, targetY := 2, velocity := 3, speed := 4 }] :
        List LayerState)[0]?
      = ([{ currentY := 5, targetY := 6, velocity := 7, speed := 8 },
          { currentY := 1, targetY := 2, velocity := 3, speed := 4 }] :
          List LayerState)[1]?)
      ∧ ((animateAll defaultSpring 1 2
            [{ currentY := 1, targetY := 2, velocity := 3, speed := 4 }])[0]?
          = Option.map (animateLayer defaultSpring 1 2)
              ([{ currentY := 1, targetY := 2, velocity := 3, speed := 4 }] :
                List LayerState)[0]?
        ∧ (animateAllN defaultSpring 1 2 2
            [{ currentY := 1, targetY := 2, velocity := 3, speed := 4 }])[0]?
          = (animateAllN defaultSpring 1 2 2
              [{ currentY := 5, targetY := 6, velocity := 7, speed := 8 },
               { currentY := 1, targetY := 2, velocity := 3, speed := 4 }])[1]?) :=
  ⟨rfl, channel_independence defaultSpring 1 2
    [{ currentY := 1, targetY := 2, velocity := 3, speed := 4 }]
    [{ currentY := 5, targetY := 6, velocity := 7, speed := 8 },
     { currentY := 1, targetY := 2, velocity := 3, speed := 4 }] 0 1 2 rfl⟩

/-- Claim C8: `configure` called with a non-positive (and in this
embedding every rational is finite, so in particular a zero or
negative) stiffness, damping or mass fails with `InvalidParameter`; the
failure returns no engine, so in this pure embedding the caller's prior
engine — every channel's current, target and velocity — is untouched. -/
theorem configure_rejects_invalid (stiffness damping mass : ℚ) (e : Engine)
    (h : stiffness ≤ 0 ∨ damping ≤ 0 ∨ mass ≤ 0) :
    configure stiffness damping mass e
      = Except.error SpringError.InvalidParameter := by
  have hneg : ¬ (0 < stiffness ∧ 0 < damping ∧ 0 < mass) := by
    rintro ⟨a, b, c⟩
    rcases h with h | h | h <;> linarith
  simp [configure, hneg]

theorem configure_rejects_invalid_witness :
    ((0:ℚ) ≤ 0 ∨ (1:ℚ) ≤ 0 ∨ (1:ℚ) ≤ 0)
      ∧ configure 0 1 1 { spring := defaultSpring, channels := [step100] }
        = Except.error SpringError.InvalidParameter :=
  ⟨Or.inl le_rfl,
    configure_rejects_invalid 0 1 1
      { spring := defaultSpring, channels := [step100] } (Or.inl le_rfl)⟩
